import Mathlib

/-!
Verification of the WhatsApp Flow webhook envelope codec
(`src/encryption.js`, both the ES-module and the CommonJS variant, and the
Express webhook handler).

Bytes are modelled as `Nat` (values `< 256` where it matters), buffers as
`List Nat`.  The AES-128-GCM cipher used through `crypto.createCipheriv`
and `crypto.createDecipheriv` is modelled concretely (FIPS-197 AES block
cipher, NIST SP 800-38D GCM with a 12-byte IV, the only branch the
protocol uses).  External library calls whose behaviour is not part of
this repository — `crypto.privateDecrypt` (RSA-OAEP), `JSON.parse` /
`JSON.stringify` composed with UTF-8 (de)coding, and `crypto.createHmac`
— are passed in as explicit function parameters, exactly where the source
calls out to them.
-/

set_option maxRecDepth 100000
set_option maxHeartbeats 4000000

/-- Pointwise XOR of two byte lists, truncating to the shorter one
(the cipher stream combination used by CTR mode). -/
def zipXor : List Nat → List Nat → List Nat
  | a :: as, b :: bs => (a ^^^ b) :: zipXor as bs
  | _, _ => []

theorem zipXor_length : ∀ (a b : List Nat), (zipXor a b).length = min a.length b.length
  | [], [] => rfl
  | [], _ :: _ => rfl
  | _ :: _, [] => rfl
  | _ :: as, _ :: bs => by
    simp [zipXor, zipXor_length as bs, Nat.succ_min_succ]

theorem xor_lt_256 {a b : Nat} (ha : a < 256) (hb : b < 256) : a ^^^ b < 256 := by
  have h := Nat.xor_lt_two_pow (show a < 2 ^ 8 by omega) (show b < 2 ^ 8 by omega)
  omega

theorem zipXor_cancel : ∀ (p ks : List Nat), p.length ≤ ks.length →
    zipXor (zipXor p ks) ks = p
  | [], ks, _ => by cases ks <;> rfl
  | _ :: _, [], h => by simp at h
  | a :: as, b :: bs, h => by
    simp [zipXor]
    constructor
    · rw [Nat.xor_assoc, Nat.xor_self, Nat.xor_zero]
    · exact zipXor_cancel as bs (by simpa using h)

theorem zipXor_mem_lt {xs ys : List Nat}
    (hx : ∀ a ∈ xs, a < 256) (hy : ∀ b ∈ ys, b < 256) :
    ∀ c ∈ zipXor xs ys, c < 256 := by
  induction xs generalizing ys with
  | nil => intro c hc; simp [zipXor] at hc
  | cons a as ih =>
    intro c hc
    cases ys with
    | nil => simp [zipXor] at hc
    | cons b bs =>
      simp [zipXor] at hc
      rcases hc with hc | hc
      · subst hc
        exact xor_lt_256 (hx a (by simp)) (hy b (by simp))
      · exact ih (fun x hx2 => hx x (by simp [hx2])) (fun x hx2 => hy x (by simp [hx2])) c hc

/-- Big-endian conversion of a 128-bit value to its 16 bytes. -/
def natToBytes16 (n : Nat) : List Nat :=
  (List.range 16).map (fun i => (n >>> (8 * (15 - i))) &&& 255)

theorem natToBytes16_length (n : Nat) : (natToBytes16 n).length = 16 := by
  simp [natToBytes16]

theorem natToBytes16_lt (n : Nat) : ∀ b ∈ natToBytes16 n, b < 256 := by
  intro b hb
  simp [natToBytes16] at hb
  obtain ⟨i, _, hi⟩ := hb
  subst hi
  have : (n >>> (8 * (15 - i))) &&& 255 ≤ 255 := Nat.and_le_right
  omega

/-- Big-endian interpretation of a byte list as a natural number. -/
def bytesToNat (l : List Nat) : Nat :=
  l.foldl (fun acc b => acc * 256 + b) 0

instance {e a : Type} [DecidableEq e] [DecidableEq a] : DecidableEq (Except e a) := fun x y =>
  match x, y with
  | .ok v, .ok w =>
    if h : v = w then isTrue (by rw [h]) else isFalse (by intro hc; cases hc; exact h rfl)
  | .error v, .error w =>
    if h : v = w then isTrue (by rw [h]) else isFalse (by intro hc; cases hc; exact h rfl)
  | .ok _, .error _ => isFalse (by intro hc; cases hc)
  | .error _, .ok _ => isFalse (by intro hc; cases hc)

theorem getD_lt_of_forall {l : List Nat} (h : ∀ b ∈ l, b < 256) (i : Nat) :
    l.getD i 0 < 256 := by
  rcases Nat.lt_or_ge i l.length with hi | hi
  · rw [List.getD_eq_getElem l 0 hi]
    exact h _ (l.getElem_mem hi)
  · rw [List.getD_eq_default l 0 hi]
    omega

/-!
## AES-128 block cipher (FIPS-197)

This models the block cipher behind Node's `"aes-128-gcm"`.  The S-box is
computed from its definition (inversion in GF(2^8) followed by the affine
map) rather than tabulated.  The state is the usual column-major list of
16 bytes.
-/

/-- Multiplication in GF(2^8) modulo the AES polynomial `x^8+x^4+x^3+x+1`. -/
def gf8mul (a b : Nat) : Nat :=
  ((List.range 8).foldl
    (fun acc _ =>
      let r := if acc.2.2 % 2 = 1 then acc.1 ^^^ acc.2.1 else acc.1
      let a2 := ((acc.2.1 * 2) &&& 255) ^^^ (if acc.2.1 ≥ 128 then 0x1b else 0)
      (r, a2, acc.2.2 / 2))
    ((0 : Nat), a &&& 255, b &&& 255)).1

/-- Inversion in GF(2^8): `a ^ 254` (maps 0 to 0 as in the AES S-box). -/
def gf8inv (a : Nat) : Nat :=
  let a2 := gf8mul a a
  let a4 := gf8mul a2 a2
  let a8 := gf8mul a4 a4
  let a16 := gf8mul a8 a8
  let a32 := gf8mul a16 a16
  let a64 := gf8mul a32 a32
  let a128 := gf8mul a64 a64
  gf8mul a128 (gf8mul a64 (gf8mul a32 (gf8mul a16 (gf8mul a8 (gf8mul a4 a2)))))

/-- Rotate an 8-bit value left by `k` bits. -/
def rotl8 (b k : Nat) : Nat :=
  (((b &&& 255) <<< k) ||| ((b &&& 255) >>> (8 - k))) &&& 255

/-- The AES S-box as a table (tabulated for evaluation speed; pinned to
its defining formula by `sboxTable_spec` below). -/
def sboxTable : List Nat := [
  0x63, 0x7c, 0x77, 0x7b, 0xf2, 0x6b, 0x6f, 0xc5,
  0x30, 0x01, 0x67, 0x2b, 0xfe, 0xd7, 0xab, 0x76,
  0xca, 0x82, 0xc9, 0x7d, 0xfa, 0x59, 0x47, 0xf0,
  0xad, 0xd4, 0xa2, 0xaf, 0x9c, 0xa4, 0x72, 0xc0,
  0xb7, 0xfd, 0x93, 0x26, 0x36, 0x3f, 0xf7, 0xcc,
  0x34, 0xa5, 0xe5, 0xf1, 0x71, 0xd8, 0x31, 0x15,
  0x04, 0xc7, 0x23, 0xc3, 0x18, 0x96, 0x05, 0x9a,
  0x07, 0x12, 0x80, 0xe2, 0xeb, 0x27, 0xb2, 0x75,
  0x09, 0x83, 0x2c, 0x1a, 0x1b, 0x6e, 0x5a, 0xa0,
  0x52, 0x3b, 0xd6, 0xb3, 0x29, 0xe3, 0x2f, 0x84,
  0x53, 0xd1, 0x00, 0xed, 0x20, 0xfc, 0xb1, 0x5b,
  0x6a, 0xcb, 0xbe, 0x39, 0x4a, 0x4c, 0x58, 0xcf,
  0xd0, 0xef, 0xaa, 0xfb, 0x43, 0x4d, 0x33, 0x85,
  0x45, 0xf9, 0x02, 0x7f, 0x50, 0x3c, 0x9f, 0xa8,
  0x51, 0xa3, 0x40, 0x8f, 0x92, 0x9d, 0x38, 0xf5,
  0xbc, 0xb6, 0xda, 0x21, 0x10, 0xff, 0xf3, 0xd2,
  0xcd, 0x0c, 0x13, 0xec, 0x5f, 0x97, 0x44, 0x17,
  0xc4, 0xa7, 0x7e, 0x3d, 0x64, 0x5d, 0x19, 0x73,
  0x60, 0x81, 0x4f, 0xdc, 0x22, 0x2a, 0x90, 0x88,
  0x46, 0xee, 0xb8, 0x14, 0xde, 0x5e, 0x0b, 0xdb,
  0xe0, 0x32, 0x3a, 0x0a, 0x49, 0x06, 0x24, 0x5c,
  0xc2, 0xd3, 0xac, 0x62, 0x91, 0x95, 0xe4, 0x79,
  0xe7, 0xc8, 0x37, 0x6d, 0x8d, 0xd5, 0x4e, 0xa9,
  0x6c, 0x56, 0xf4, 0xea, 0x65, 0x7a, 0xae, 0x08,
  0xba, 0x78, 0x25, 0x2e, 0x1c, 0xa6, 0xb4, 0xc6,
  0xe8, 0xdd, 0x74, 0x1f, 0x4b, 0xbd, 0x8b, 0x8a,
  0x70, 0x3e, 0xb5, 0x66, 0x48, 0x03, 0xf6, 0x0e,
  0x61, 0x35, 0x57, 0xb9, 0x86, 0xc1, 0x1d, 0x9e,
  0xe1, 0xf8, 0x98, 0x11, 0x69, 0xd9, 0x8e, 0x94,
  0x9b, 0x1e, 0x87, 0xe9, 0xce, 0x55, 0x28, 0xdf,
  0x8c, 0xa1, 0x89, 0x0d, 0xbf, 0xe6, 0x42, 0x68,
  0x41, 0x99, 0x2d, 0x0f, 0xb0, 0x54, 0xbb, 0x16]

/-- The AES S-box: GF(2^8) inversion followed by the affine transformation,
looked up in the table. -/
def sbox (b : Nat) : Nat := sboxTable.getD (b &&& 255) 0

theorem gf8mul_lt (a b : Nat) : gf8mul a b < 256 := by
  unfold gf8mul
  have key : ∀ (l : List Nat) (z : Nat × Nat × Nat), z.1 < 256 → z.2.1 < 256 →
      (l.foldl (fun acc _ =>
        let r := if acc.2.2 % 2 = 1 then acc.1 ^^^ acc.2.1 else acc.1
        let a2 := ((acc.2.1 * 2) &&& 255) ^^^ (if acc.2.1 ≥ 128 then 0x1b else 0)
        (r, a2, acc.2.2 / 2)) z).1 < 256 := by
    intro l
    induction l with
    | nil => intro z h1 _; exact h1
    | cons x xs ih =>
      intro z h1 h2
      refine ih _ ?_ ?_
      · dsimp only
        split
        · exact xor_lt_256 h1 h2
        · exact h1
      · dsimp only
        refine xor_lt_256 (Nat.lt_succ_of_le Nat.and_le_right) ?_
        split <;> omega
  exact key _ _ (by omega) (Nat.lt_succ_of_le Nat.and_le_right)

theorem gf8inv_lt (a : Nat) : gf8inv a < 256 := by
  unfold gf8inv
  exact gf8mul_lt _ _

/-- The table is exactly the S-box formula: GF(2^8) inversion followed by
the affine transformation. -/
theorem sboxTable_spec :
    sboxTable = (List.range 256).map (fun b =>
      let i := gf8inv b
      (((i ^^^ rotl8 i 1) ^^^ rotl8 i 2) ^^^ rotl8 i 3) ^^^ (rotl8 i 4 ^^^ 0x63)) := by
  decide

theorem sboxTable_mem_lt : ∀ x ∈ sboxTable, x < 256 := by decide

theorem sbox_lt (b : Nat) : sbox b < 256 := by
  unfold sbox
  exact getD_lt_of_forall sboxTable_mem_lt _

/-- The four bytes of a 32-bit word, big-endian. -/
def wordBytes (w : Nat) : List Nat :=
  [(w >>> 24) &&& 255, (w >>> 16) &&& 255, (w >>> 8) &&& 255, w &&& 255]

/-- S-box applied to each byte of a 32-bit word. -/
def subWord (w : Nat) : Nat :=
  (sbox ((w >>> 24) &&& 255) <<< 24) ||| (sbox ((w >>> 16) &&& 255) <<< 16) |||
    (sbox ((w >>> 8) &&& 255) <<< 8) ||| sbox (w &&& 255)

/-- Rotate a 32-bit word left by one byte. -/
def rotWord (w : Nat) : Nat :=
  ((w <<< 8) &&& 0xffffffff) ||| ((w &&& 0xffffffff) >>> 24)

/-- AES round constants. -/
def rcon : List Nat := [0x01, 0x02, 0x04, 0x08, 0x10, 0x20, 0x40, 0x80, 0x1b, 0x36]

/-- AES-128 key expansion: 16 key bytes to 44 32-bit round-key words. -/
def expandKey (key : List Nat) : List Nat :=
  let w0 := [bytesToNat (key.take 4), bytesToNat ((key.drop 4).take 4),
             bytesToNat ((key.drop 8).take 4), bytesToNat ((key.drop 12).take 4)]
  (List.range 40).foldl
    (fun ws i =>
      let prev := ws.getD (ws.length - 1) 0
      let back4 := ws.getD (ws.length - 4) 0
      let t := if (i + 4) % 4 = 0 then
                 subWord (rotWord prev) ^^^ (rcon.getD ((i + 4) / 4 - 1) 0 <<< 24)
               else prev
      ws ++ [back4 ^^^ t])
    w0

/-- Bytes of round key `r` (words `4r .. 4r+3`). -/
def rkBytes (ws : List Nat) (r : Nat) : List Nat :=
  ((ws.drop (4 * r)).take 4).flatMap wordBytes

/-- AES ShiftRows on the column-major 16-byte state. -/
def shiftRows (s : List Nat) : List Nat :=
  (List.range 16).map (fun i => s.getD (4 * ((i / 4 + i % 4) % 4) + i % 4) 0)

/-- AES MixColumns on the column-major 16-byte state. -/
def mixColumns (s : List Nat) : List Nat :=
  (List.range 4).flatMap (fun c =>
    let a := s.getD (4 * c) 0
    let b := s.getD (4 * c + 1) 0
    let d := s.getD (4 * c + 2) 0
    let e := s.getD (4 * c + 3) 0
    [((gf8mul 2 a ^^^ gf8mul 3 b) ^^^ d) ^^^ e,
     ((a ^^^ gf8mul 2 b) ^^^ gf8mul 3 d) ^^^ e,
     ((a ^^^ b) ^^^ gf8mul 2 d) ^^^ gf8mul 3 e,
     ((gf8mul 3 a ^^^ b) ^^^ d) ^^^ gf8mul 2 e])

/-- One full AES-128 encryption of a 16-byte block. -/
def aes128Block (key block : List Nat) : List Nat :=
  let ws := expandKey key
  let st0 := zipXor block (rkBytes ws 0)
  let st9 := (List.range 9).foldl
    (fun st r => zipXor (mixColumns (shiftRows (st.map sbox))) (rkBytes ws (r + 1)))
    st0
  zipXor (shiftRows (st9.map sbox)) (rkBytes ws 10)

theorem wordBytes_mem_lt (w : Nat) : ∀ b ∈ wordBytes w, b < 256 := by
  intro b hb
  simp only [wordBytes, List.mem_cons, List.not_mem_nil, or_false] at hb
  rcases hb with h | h | h | h <;> subst h <;> exact Nat.lt_succ_of_le Nat.and_le_right

theorem rkBytes_mem_lt (ws : List Nat) (r : Nat) : ∀ b ∈ rkBytes ws r, b < 256 := by
  intro b hb
  unfold rkBytes at hb
  rw [List.mem_flatMap] at hb
  obtain ⟨w, _, hw⟩ := hb
  exact wordBytes_mem_lt w b hw

theorem shiftRows_mem_lt {s : List Nat} (hs : ∀ b ∈ s, b < 256) :
    ∀ b ∈ shiftRows s, b < 256 := by
  intro b hb
  unfold shiftRows at hb
  rw [List.mem_map] at hb
  obtain ⟨i, _, hi⟩ := hb
  subst hi
  exact getD_lt_of_forall hs _

theorem aes128Block_mem_lt (key block : List Nat) : ∀ b ∈ aes128Block key block, b < 256 := by
  unfold aes128Block
  refine zipXor_mem_lt (shiftRows_mem_lt ?_) (rkBytes_mem_lt _ _)
  intro b hb
  rw [List.mem_map] at hb
  obtain ⟨a, _, ha⟩ := hb
  subst ha
  exact sbox_lt a

/-!
## AES-128-GCM (NIST SP 800-38D, 12-byte IV branch, no AAD)

`createCipheriv("aes-128-gcm", ...)` / `createDecipheriv` with no
`setAAD` call, a 12-byte IV and the default 16-byte tag, as used by
`encryptResponse` and `decryptRequest`.
-/

/-- Multiplication in GF(2^128) with the GCM reduction polynomial,
blocks as big-endian 128-bit naturals. -/
def gmul (x y : Nat) : Nat :=
  ((List.range 128).foldl
    (fun zv i =>
      let z := if x.testBit (127 - i) then zv.1 ^^^ zv.2 else zv.1
      let v := if zv.2 % 2 = 1 then (zv.2 / 2) ^^^ (0xe1 <<< 120) else zv.2 / 2
      (z, v))
    ((0 : Nat), y)).1

/-- GHASH over a list of 128-bit blocks. -/
def ghash (h : Nat) (blocks : List Nat) : Nat :=
  blocks.foldl (fun y x => gmul (y ^^^ x) h) 0

/-- The GCM 32-bit counter increment, iterated `i` times. -/
def ctrAdd (j i : Nat) : Nat :=
  (j / 2 ^ 32) * 2 ^ 32 + ((j % 2 ^ 32 + i) % 2 ^ 32)

/-- The first `n` bytes of the CTR keystream starting at counter `j0 + 1`. -/
def ctrStream (key : List Nat) (j0 n : Nat) : List Nat :=
  (List.range n).map
    (fun i => (aes128Block key (natToBytes16 (ctrAdd j0 (1 + i / 16)))).getD (i % 16) 0)

/-- Split a byte list into zero-padded 16-byte blocks, as naturals. -/
def toBlocks (l : List Nat) : List Nat :=
  (List.range ((l.length + 15) / 16)).map
    (fun i =>
      let c := (l.drop (16 * i)).take 16
      bytesToNat (c ++ List.replicate (16 - c.length) 0))

/-- The GCM authentication tag for ciphertext `ct` (no AAD):
`GHASH_H(pad(ct) || len) XOR E_K(J0)`. -/
def gcmTag (key iv ct : List Nat) : List Nat :=
  let h := bytesToNat (aes128Block key (List.replicate 16 0))
  let j0 := bytesToNat iv * 2 ^ 32 + 1
  let s := ghash h (toBlocks ct ++ [ct.length * 8])
  natToBytes16 (s ^^^ bytesToNat (aes128Block key (natToBytes16 j0)))

/-- GCM encryption: ciphertext and tag. -/
def gcmEncrypt (key iv pt : List Nat) : List Nat × List Nat :=
  let j0 := bytesToNat iv * 2 ^ 32 + 1
  let ct := zipXor pt (ctrStream key j0 pt.length)
  (ct, gcmTag key iv ct)

/-- GCM decryption: recompute the tag over the ciphertext, reject on
mismatch (this is `decipher.final()` raising), else return the plaintext. -/
def gcmDecrypt (key iv ct tag : List Nat) : Option (List Nat) :=
  if gcmTag key iv ct = tag then
    some (zipXor ct (ctrStream key (bytesToNat iv * 2 ^ 32 + 1) ct.length))
  else
    none

theorem ctrStream_length (key : List Nat) (j0 n : Nat) : (ctrStream key j0 n).length = n := by
  simp [ctrStream]

theorem ctrStream_mem_lt (key : List Nat) (j0 n : Nat) : ∀ b ∈ ctrStream key j0 n, b < 256 := by
  intro b hb
  unfold ctrStream at hb
  rw [List.mem_map] at hb
  obtain ⟨i, _, hi⟩ := hb
  subst hi
  exact getD_lt_of_forall (aes128Block_mem_lt _ _) _

theorem gcmEncrypt_ct_length (key iv pt : List Nat) :
    (gcmEncrypt key iv pt).1.length = pt.length := by
  simp [gcmEncrypt, zipXor_length, ctrStream_length]

theorem gcmEncrypt_ct_mem_lt {pt : List Nat} (key iv : List Nat)
    (hpt : ∀ b ∈ pt, b < 256) : ∀ b ∈ (gcmEncrypt key iv pt).1, b < 256 := by
  unfold gcmEncrypt
  exact zipXor_mem_lt hpt (ctrStream_mem_lt _ _ _)

theorem gcmTag_length (key iv ct : List Nat) : (gcmTag key iv ct).length = 16 := by
  simp [gcmTag, natToBytes16_length]

theorem gcmTag_mem_lt (key iv ct : List Nat) : ∀ b ∈ gcmTag key iv ct, b < 256 := by
  unfold gcmTag
  exact natToBytes16_lt _

/-- GCM round-trip: decrypting a produced (ciphertext, tag) pair under the
same key and IV recovers the plaintext. -/
theorem gcmDecrypt_gcmEncrypt (key iv pt : List Nat) :
    gcmDecrypt key iv (gcmEncrypt key iv pt).1 (gcmEncrypt key iv pt).2 = some pt := by
  unfold gcmDecrypt
  rw [if_pos]
  · congr 1
    show zipXor (zipXor pt (ctrStream key (bytesToNat iv * 2 ^ 32 + 1) pt.length)) _ = pt
    rw [gcmEncrypt_ct_length]
    exact zipXor_cancel _ _ (by rw [ctrStream_length])
  · rfl

/-!
## Base64 (Node `Buffer.prototype.toString("base64")` /
`Buffer.from(_, "base64")`)

Standard alphabet with `=` padding on encode; decode drops padding and
any character outside the alphabet, then reassembles 6-bit groups.
-/

def b64Alphabet : List Char :=
  "ABCDEFGHIJKLMNOPQRSTUVWXYZabcdefghijklmnopqrstuvwxyz0123456789+/".data

def b64Char (n : Nat) : Char := b64Alphabet.getD n 'A'

def b64Index (c : Char) : Option Nat :=
  let i := b64Alphabet.indexOf c
  if i < 64 then some i else none

def encB64 : List Nat → List Char
  | [] => []
  | [a] => [b64Char (a / 4), b64Char ((a % 4) * 16), '=', '=']
  | [a, b] => [b64Char (a / 4), b64Char ((a % 4) * 16 + b / 16), b64Char ((b % 16) * 4), '=']
  | a :: b :: c :: rest =>
      b64Char (a / 4) :: b64Char ((a % 4) * 16 + b / 16) ::
        b64Char ((b % 16) * 4 + c / 64) :: b64Char (c % 64) :: encB64 rest

def decB64 : List Nat → List Nat
  | s1 :: s2 :: s3 :: s4 :: rest =>
      (s1 * 4 + s2 / 16) :: ((s2 % 16) * 16 + s3 / 4) :: ((s3 % 4) * 64 + s4) :: decB64 rest
  | [s1, s2] => [s1 * 4 + s2 / 16]
  | [s1, s2, s3] => [s1 * 4 + s2 / 16, (s2 % 16) * 16 + s3 / 4]
  | _ => []

def encodeB64 (l : List Nat) : String := String.mk (encB64 l)

def decodeB64 (s : String) : List Nat := decB64 (s.data.filterMap b64Index)

theorem b64Index_b64Char : ∀ s, s < 64 → b64Index (b64Char s) = some s := by decide

theorem b64Index_pad : b64Index '=' = none := by decide

theorem decB64_encB64 : ∀ (l : List Nat), (∀ b ∈ l, b < 256) →
    decB64 ((encB64 l).filterMap b64Index) = l
  | [], _ => rfl
  | [a], h => by
    have ha : a < 256 := h a (by simp)
    simp only [encB64, List.filterMap]
    rw [b64Index_b64Char _ (by omega), b64Index_b64Char _ (by omega)]
    simp only [b64Index_pad]
    simp only [decB64]
    have : a / 4 * 4 + a % 4 * 16 / 16 = a := by omega
    rw [this]
  | [a, b], h => by
    have ha : a < 256 := h a (by simp)
    have hb : b < 256 := h b (by simp)
    simp only [encB64, List.filterMap]
    rw [b64Index_b64Char _ (by omega), b64Index_b64Char _ (by omega),
      b64Index_b64Char _ (by omega)]
    simp only [b64Index_pad]
    simp only [decB64]
    have e1 : a / 4 * 4 + (a % 4 * 16 + b / 16) / 16 = a := by omega
    have e2 : (a % 4 * 16 + b / 16) % 16 * 16 + b % 16 * 4 / 4 = b := by omega
    rw [e1, e2]
  | a :: b :: c :: rest, h => by
    have ha : a < 256 := h a (by simp)
    have hb : b < 256 := h b (by simp)
    have hc : c < 256 := h c (by simp)
    have ih := decB64_encB64 rest (fun x hx => h x (by simp [hx]))
    simp only [encB64, List.filterMap_cons]
    rw [b64Index_b64Char _ (by omega), b64Index_b64Char _ (by omega),
      b64Index_b64Char _ (by omega), b64Index_b64Char _ (by omega)]
    simp only [decB64, ih]
    have e1 : a / 4 * 4 + (a % 4 * 16 + b / 16) / 16 = a := by omega
    have e2 : (a % 4 * 16 + b / 16) % 16 * 16 + ((b % 16) * 4 + c / 64) / 4 = b := by omega
    have e3 : ((b % 16) * 4 + c / 64) % 4 * 64 + c % 64 = c := by omega
    rw [e1, e2, e3]

/-- Decoding an encoded byte list recovers it exactly. -/
theorem decodeB64_encodeB64 (l : List Nat) (h : ∀ b ∈ l, b < 256) :
    decodeB64 (encodeB64 l) = l := by
  unfold decodeB64 encodeB64
  exact decB64_encB64 l h

/-!
## JavaScript-level data model

`RequestBody` is the JSON-parsed webhook body (fields may be absent).
`JsError` enumerates the error classes the endpoint can throw:
`FlowEndpointException` from `src/encryption.js`, `SecurityError` from the
server file, and the built-in / `node:crypto` errors that escape uncaught.
-/

inductive JsError where
  | flowEndpointException (statusCode : Nat) (message : String)
  | securityError (message : String)
  | typeError (message : String)
  | rangeError (message : String)
  | cryptoError (message : String)
  | syntaxError (message : String)
deriving DecidableEq

/-- Is the error the `FlowEndpointException` class from `encryption.js`? -/
def JsError.isFlowEndpointException : JsError → Bool
  | .flowEndpointException _ _ => true
  | _ => false

/-- Is the error the `SecurityError` class from the server file? -/
def JsError.isSecurityError : JsError → Bool
  | .securityError _ => true
  | _ => false

/-- The webhook body after `express.json` parsing; each envelope field may
be absent. -/
structure RequestBody where
  encrypted_aes_key : Option String
  encrypted_flow_data : Option String
  initial_vector : Option String
deriving DecidableEq

/-- The value returned by a successful `decryptRequest`. -/
structure DecryptResult (J : Type) where
  decryptedBody : J
  aesKeyBuffer : List Nat
  initialVectorBuffer : List Nat
deriving DecidableEq

/-- JavaScript falsiness of an optional string (`undefined`, `null` and
`""` are falsy). -/
def falsy : Option String → Bool
  | none => true
  | some s => s == ""

/-- `~b` on a byte followed by the `Buffer.from` coercion modulo 256. -/
def tildeByte (b : Nat) : Nat := ((-(b : Int) - 1) % 256).toNat

/-- The `flipped_iv` loop of `encryptResponse`: `~byte` pushed for every
byte of the request IV, then coerced by `Buffer.from`. -/
def flipIV (iv : List Nat) : List Nat := iv.map tildeByte

/-- ECMAScript relative index resolution used by `TypedArray.subarray`:
negative indices count from the end, clamped to `[0, len]`. -/
def jsIndex (len : Nat) (i : Int) : Nat :=
  if i < 0 then ((len : Int) + i).toNat else min i.toNat len

/-- `buffer.subarray(s, e)` on a byte list. -/
def jsSubarray (l : List Nat) (s e : Int) : List Nat :=
  (l.take (jsIndex l.length e)).drop (jsIndex l.length s)

/-- The tag split in `decryptRequest`:
`body = buf.subarray(0, -TAG_LENGTH)`, `tag = buf.subarray(-TAG_LENGTH)`
with `TAG_LENGTH = 16` (one-argument `subarray` runs to the end). -/
def splitFlowData (buf : List Nat) : List Nat × List Nat :=
  (jsSubarray buf 0 (-16), jsSubarray buf (-16) (buf.length : Int))

def esmRsaFailMsg : String :=
  "Failed to decrypt the request. Please verify your private key."
def cjsFailMsg : String :=
  "Failed to decrypt the request. Please verify your data."
def cjsMissingMsg : String := "Missing required encryption parameters"
def keyLoadFailMsg : String := "error:1E08010C:DECODER routines::unsupported"
def bufferFromUndefinedMsg : String :=
  "The first argument must be of type string or an instance of Buffer, ArrayBuffer, or Array or an Array-like Object. Received undefined"
def invalidKeyLenMsg : String := "Invalid key length"
def invalidIvMsg : String := "Invalid initialization vector"
def authFailMsg : String := "Unsupported state or unable to authenticate data"
def jsonParseFailMsg : String := "Unexpected token in JSON"
def timingLengthMsg : String := "Input buffers must have the same byte length"
def hmacKeyMsg : String :=
  "The key argument must be of type string or an instance of ArrayBuffer, Buffer, TypedArray, DataView, KeyObject, or CryptoKey. Received undefined"

/-!
## `decryptRequest` / `encryptResponse`, ES-module variant
(`src/encryption.js` lines 15-86)

`createKeyOk` models whether `crypto.createPrivateKey` succeeds on the
configured PEM + passphrase (it is called before the `try` block, so its
failure escapes uncaught).  `privateDecrypt` models the library RSA-OAEP
unwrap `crypto.privateDecrypt` (`none` = the call throws).  `jsonParse`
models `Buffer.toString("utf-8")` + `JSON.parse`; in `encryptResponse`,
`stringify` models `JSON.stringify` + UTF-8 encoding.  The AES-128-GCM
calls are the concrete `gcmDecrypt` / `gcmEncrypt` above; the model covers
the 12-byte-IV branch of the cipher, the only one that arises (a non-16
byte key or non-12 byte IV is rejected at `createDecipheriv` time like in
Node).
-/

def decryptRequest {J : Type} (createKeyOk : Bool)
    (privateDecrypt : String → Option (List Nat))
    (jsonParse : List Nat → Option J) (body : RequestBody) :
    Except JsError (DecryptResult J) :=
  -- const privateKey = crypto.createPrivateKey(...): before the try block
  if createKeyOk = false then .error (.cryptoError keyLoadFailMsg)
  else
    -- try { decryptedAesKey = crypto.privateDecrypt(..., Buffer.from(encrypted_aes_key, "base64")) }
    -- catch { throw new FlowEndpointException(421, ...) }
    match body.encrypted_aes_key with
    | none => .error (.flowEndpointException 421 esmRsaFailMsg)
    | some ek =>
      match privateDecrypt ek with
      | none => .error (.flowEndpointException 421 esmRsaFailMsg)
      | some decryptedAesKey =>
        -- the remaining statements are outside any try/catch
        match body.encrypted_flow_data with
        | none => .error (.typeError bufferFromUndefinedMsg)
        | some efd =>
          match body.initial_vector with
          | none => .error (.typeError bufferFromUndefinedMsg)
          | some ivs =>
            let flowDataBuffer := decodeB64 efd
            let initialVectorBuffer := decodeB64 ivs
            let split := splitFlowData flowDataBuffer
            if decryptedAesKey.length ≠ 16 then .error (.cryptoError invalidKeyLenMsg)
            else if initialVectorBuffer.length ≠ 12 then .error (.cryptoError invalidIvMsg)
            else
              match gcmDecrypt decryptedAesKey initialVectorBuffer split.1 split.2 with
              | none => .error (.cryptoError authFailMsg)
              | some pt =>
                match jsonParse pt with
                | none => .error (.syntaxError jsonParseFailMsg)
                | some decryptedBody =>
                  .ok ⟨decryptedBody, decryptedAesKey, initialVectorBuffer⟩

def encryptResponse {J : Type} (stringify : J → List Nat) (response : J)
    (aesKeyBuffer initialVectorBuffer : List Nat) : Except JsError String :=
  let flipped_iv := flipIV initialVectorBuffer
  if aesKeyBuffer.length ≠ 16 then .error (.cryptoError invalidKeyLenMsg)
  else if flipped_iv.length ≠ 12 then .error (.cryptoError invalidIvMsg)
  else
    let enc := gcmEncrypt aesKeyBuffer flipped_iv (stringify response)
    .ok (encodeB64 (enc.1 ++ enc.2))

/-!
## `decryptRequest`, CommonJS variant (`src/encryption.js` lines 94-170)

Identical pipeline, but a falsy-field guard throws
`FlowEndpointException(400, ...)` first, `createPrivateKey` sits inside
the `try`, and the single `try/catch` converts every later failure into
`FlowEndpointException(421, "... verify your data.")`.
-/

def decryptRequestCJS {J : Type} (createKeyOk : Bool)
    (privateDecrypt : String → Option (List Nat))
    (jsonParse : List Nat → Option J) (body : RequestBody) :
    Except JsError (DecryptResult J) :=
  if falsy body.encrypted_aes_key || falsy body.encrypted_flow_data ||
      falsy body.initial_vector then
    .error (.flowEndpointException 400 cjsMissingMsg)
  else
    -- try { ... } catch { throw new FlowEndpointException(421, ...) }
    if createKeyOk = false then .error (.flowEndpointException 421 cjsFailMsg)
    else
      match body.encrypted_aes_key with
      | none => .error (.flowEndpointException 421 cjsFailMsg)
      | some ek =>
        match privateDecrypt ek with
        | none => .error (.flowEndpointException 421 cjsFailMsg)
        | some decryptedAesKey =>
          match body.encrypted_flow_data with
          | none => .error (.flowEndpointException 421 cjsFailMsg)
          | some efd =>
            match body.initial_vector with
            | none => .error (.flowEndpointException 421 cjsFailMsg)
            | some ivs =>
              let flowDataBuffer := decodeB64 efd
              let initialVectorBuffer := decodeB64 ivs
              let split := splitFlowData flowDataBuffer
              if decryptedAesKey.length ≠ 16 then
                .error (.flowEndpointException 421 cjsFailMsg)
              else if initialVectorBuffer.length ≠ 12 then
                .error (.flowEndpointException 421 cjsFailMsg)
              else
                match gcmDecrypt decryptedAesKey initialVectorBuffer split.1 split.2 with
                | none => .error (.flowEndpointException 421 cjsFailMsg)
                | some pt =>
                  match jsonParse pt with
                  | none => .error (.flowEndpointException 421 cjsFailMsg)
                  | some decryptedBody =>
                    .ok ⟨decryptedBody, decryptedAesKey, initialVectorBuffer⟩

/-!
## Webhook server (`app.post("/")`, signature middleware)

`hmacSha256Hex secret body` models `crypto.createHmac("sha256", secret)
.update(body).digest("hex")`; `rateCheck` models the outcome of the
stateful `checkRateLimit` call; `getNextScreen` models the external
screen router `flowManager.getNextScreen`.  String `.length` stands for
the byte length `Buffer.from` would report (exact for the ASCII
signature strings involved).
-/

structure HttpRequest where
  rawBody : String
  xHubSignature256 : Option String
  body : RequestBody

structure HttpResponse where
  status : Nat
  body : String
deriving DecidableEq

/-- Bundle of the process configuration and external collaborators the
POST handler closes over. -/
structure ServerCtx (J : Type) where
  rateCheck : Except JsError Unit
  appSecret : Option String
  hmacSha256Hex : String → String → String
  createKeyOk : Bool
  privateDecrypt : String → Option (List Nat)
  jsonParse : List Nat → Option J
  getNextScreen : J → Except JsError J
  stringify : J → List Nat

/-- The signature middleware: `if (!signature)` rejects a missing or
empty header (JS falsiness), then the header is compared against
`"sha256=" + hex(HMAC-SHA256(secret, rawBody))` with
`crypto.timingSafeEqual`, which itself throws a `RangeError` when the two
`Buffer.from` operands differ in byte length — modelled by
`String.utf8ByteSize`, the byte length of the UTF-8 encoding; equality of
the UTF-8 bytes coincides with string equality. -/
def validateSignature (appSecret : Option String)
    (hmacSha256Hex : String → String → String) (req : HttpRequest) :
    Except JsError Unit :=
  if falsy req.xHubSignature256 then .error (.securityError "Missing signature")
  else
    let signature := req.xHubSignature256.getD ""
    match appSecret with
    | none => .error (.typeError hmacKeyMsg)
    | some secret =>
      let expectedSignature := "sha256=" ++ hmacSha256Hex secret req.rawBody
      if signature.utf8ByteSize ≠ expectedSignature.utf8ByteSize then
        .error (.rangeError timingLengthMsg)
      else if signature ≠ expectedSignature then
        .error (.securityError "Invalid signature")
      else .ok ()

/-- The body of the `try` block of `app.post("/")`: rate limit, signature
check, decrypt, route, encrypt. -/
def flowPipeline {J : Type} (ctx : ServerCtx J) (req : HttpRequest) :
    Except JsError String := do
  ctx.rateCheck
  validateSignature ctx.appSecret ctx.hmacSha256Hex req
  let decryptedRequest ← decryptRequest ctx.createKeyOk ctx.privateDecrypt ctx.jsonParse req.body
  let screenResponse ← ctx.getNextScreen decryptedRequest.decryptedBody
  encryptResponse ctx.stringify screenResponse
    decryptedRequest.aesKeyBuffer decryptedRequest.initialVectorBuffer

/-- The full POST handler: on success `res.send(encryptedResponse)`, on
any thrown error `res.status(200).send()` (empty body). -/
def appPost {J : Type} (ctx : ServerCtx J) (req : HttpRequest) : HttpResponse :=
  match flowPipeline ctx req with
  | .ok encryptedResponse => ⟨200, encryptedResponse⟩
  | .error _ => ⟨200, ""⟩

/-- Whether the handler's control flow reaches the `decryptRequest` call
(it is the next statement after the rate limit and signature checks). -/
def decryptInvoked {J : Type} (ctx : ServerCtx J) (req : HttpRequest) : Bool :=
  match ctx.rateCheck with
  | .error _ => false
  | .ok _ =>
    match validateSignature ctx.appSecret ctx.hmacSha256Hex req with
    | .error _ => false
    | .ok _ => true

/-!
## Helper lemmas
-/

theorem tildeByte_lt (b : Nat) : tildeByte b < 256 := by
  unfold tildeByte
  have h1 : 0 ≤ (-(b : Int) - 1) % 256 := Int.emod_nonneg _ (by omega)
  have h2 : (-(b : Int) - 1) % 256 < 256 := Int.emod_lt_of_pos _ (by omega)
  omega

theorem tildeByte_eq {b : Nat} (hb : b < 256) : tildeByte b = 255 - b := by
  unfold tildeByte
  have h1 : (-(b : Int) - 1) % 256 = 255 - b := by omega
  rw [h1]
  omega

theorem flipIV_length (v : List Nat) : (flipIV v).length = v.length := by
  simp [flipIV]

theorem flipIV_mem_lt (v : List Nat) : ∀ b ∈ flipIV v, b < 256 := by
  intro b hb
  rw [flipIV, List.mem_map] at hb
  obtain ⟨a, _, ha⟩ := hb
  subst ha
  exact tildeByte_lt a

theorem jsIndex_zero (len : Nat) : jsIndex len 0 = 0 := by
  simp [jsIndex]

theorem jsIndex_neg16 (len : Nat) : jsIndex len (-16) = len - 16 := by
  unfold jsIndex
  rw [if_pos (by omega)]
  omega

theorem jsIndex_cast (len : Nat) : jsIndex len (len : Int) = len := by
  unfold jsIndex
  rw [if_neg (by omega)]
  simp

theorem splitFlowData_eq (buf : List Nat) :
    splitFlowData buf = (buf.take (buf.length - 16), buf.drop (buf.length - 16)) := by
  unfold splitFlowData jsSubarray
  rw [jsIndex_zero, jsIndex_neg16, jsIndex_cast, List.drop_zero, List.take_length]

theorem take_set_ge {α : Type} (l : List α) (i n : Nat) (a : α) (h : n ≤ i) :
    (l.set i a).take n = l.take n := by
  apply List.ext_getElem
  · simp
  · intro j h1 h2
    rw [List.getElem_take, List.getElem_take, List.getElem_set_ne]
    simp at h1
    omega

theorem drop_set_ge {α : Type} (l : List α) (i n : Nat) (a : α) (h : n ≤ i) :
    (l.set i a).drop n = (l.drop n).set (i - n) a := by
  apply List.ext_getElem
  · simp
  · intro j h1 h2
    rw [List.getElem_drop]
    by_cases hj : i = n + j
    · subst hj
      rw [List.getElem_set_self, List.getElem_set, if_pos (by omega)]
    · rw [List.getElem_set_ne hj, List.getElem_set_ne (by omega), List.getElem_drop]

theorem take_set_lt {α : Type} (l : List α) (i n : Nat) (a : α) (h : i < n) :
    (l.set i a).take n = (l.take n).set i a := by
  apply List.ext_getElem
  · simp
  · intro j h1 h2
    rw [List.getElem_take]
    by_cases hj : i = j
    · subst hj
      rw [List.getElem_set_self, List.getElem_set_self]
    · rw [List.getElem_set_ne hj, List.getElem_set_ne hj, List.getElem_take]

theorem drop_set_lt {α : Type} (l : List α) (i n : Nat) (a : α) (h : i < n) :
    (l.set i a).drop n = l.drop n := by
  apply List.ext_getElem
  · simp
  · intro j h1 h2
    rw [List.getElem_drop, List.getElem_drop, List.getElem_set_ne (by omega)]

theorem xor_ne_self {b m : Nat} (hm : m ≠ 0) : b ^^^ m ≠ b := by
  intro h
  apply hm
  have h2 : b ^^^ (b ^^^ m) = m := by
    rw [← Nat.xor_assoc, Nat.xor_self, Nat.zero_xor]
  rw [h, Nat.xor_self] at h2
  exact h2.symm

theorem set_ne_self {l : List Nat} {i : Nat} {x : Nat}
    (hi : i < l.length) (hx : x ≠ l[i]) : l.set i x ≠ l := by
  intro h
  apply hx
  have h2 := congrArg (fun t : List Nat => t.getD i 0) h
  simp only [List.getD_eq_getElem?_getD] at h2
  rw [List.getElem?_eq_getElem (by simpa using hi), List.getElem?_eq_getElem hi] at h2
  simp only [Option.getD_some] at h2
  rw [List.getElem_set_self] at h2
  exact h2

/-- Flip bit `j` of byte `i` of a buffer. -/
def flipBitAt (l : List Nat) (i j : Nat) : List Nat :=
  l.set i (l.getD i 0 ^^^ (1 <<< j))

theorem flipBitAt_length (l : List Nat) (i j : Nat) :
    (flipBitAt l i j).length = l.length := by
  simp [flipBitAt]

theorem flipBitAt_mem_lt {l : List Nat} (hl : ∀ b ∈ l, b < 256) {i j : Nat} (hj : j < 8) :
    ∀ b ∈ flipBitAt l i j, b < 256 := by
  intro b hb
  rcases List.mem_or_eq_of_mem_set hb with h | h
  · exact hl b h
  · subst h
    refine xor_lt_256 (getD_lt_of_forall hl i) ?_
    rw [Nat.one_shiftLeft]
    calc 2 ^ j ≤ 2 ^ 7 := Nat.pow_le_pow_right (by omega) (by omega)
    _ < 256 := by omega

theorem encodeB64_ne_empty {l : List Nat} (h : l ≠ []) : encodeB64 l ≠ "" := by
  intro hc
  have hdata : encB64 l = [] := by
    have := congrArg String.data hc
    simpa [encodeB64] using this
  match l with
  | [] => exact h rfl
  | [a] => simp [encB64] at hdata
  | [a, b] => simp [encB64] at hdata
  | a :: b :: c :: rest => simp [encB64] at hdata

theorem append_mem_lt {a b : List Nat} (ha : ∀ x ∈ a, x < 256) (hb : ∀ x ∈ b, x < 256) :
    ∀ x ∈ a ++ b, x < 256 := by
  intro x hx
  rcases List.mem_append.mp hx with h | h
  · exact ha x h
  · exact hb x h

theorem gcmEncrypt_snd (key iv pt : List Nat) :
    (gcmEncrypt key iv pt).2 = gcmTag key iv (gcmEncrypt key iv pt).1 := rfl

/-!
## Concrete fixtures used by witnesses and counterexamples
-/

def cexKey : List Nat := List.replicate 16 0

def cexIV : List Nat := List.range 12

def cexPrivateDecrypt : String → Option (List Nat) :=
  fun s => if s = "EK" then some cexKey else none

def cexParse : List Nat → Option Nat :=
  fun bs => if bs = [123, 125] then some 7 else none

def cexStringify : Nat → List Nat := fun _ => [123, 125]

def cexEfd : String := (encryptResponse cexStringify 7 cexKey cexIV).toOption.getD ""

def cexHmac : String → String → String := fun _ _ => "ab"

def cexCtx : ServerCtx Nat :=
  ⟨.ok (), some "secret", cexHmac, true, cexPrivateDecrypt, cexParse,
    fun x => .ok x, cexStringify⟩

/-!
## Claim theorems
-/

/-- C3: the response IV that `encryptResponse` feeds to AES-128-GCM is the
byte-wise one's complement of the request IV at every index, and — being
`flipIV`, a pure function — the same request IV always yields the identical
bit-complemented cipher IV (the third conjunct exhibits the cipher call
keyed on exactly `flipIV v`). -/
theorem claimC3_iv_derivation (v : List Nat) (hvb : ∀ b ∈ v, b < 256) :
    (flipIV v).length = v.length ∧
    (∀ i, i < v.length → (flipIV v).getD i 0 = 255 - v.getD i 0) ∧
    (∀ (J : Type) (stringify : J → List Nat) (p : J) (k : List Nat),
      k.length = 16 → v.length = 12 →
      encryptResponse stringify p k v =
        .ok (encodeB64 ((gcmEncrypt k (flipIV v) (stringify p)).1 ++
          (gcmEncrypt k (flipIV v) (stringify p)).2))) := by
  refine ⟨flipIV_length v, ?_, ?_⟩
  · intro i hi
    rw [List.getD_eq_getElem _ _ (by rw [flipIV_length]; exact hi),
      List.getD_eq_getElem _ _ hi]
    simp only [flipIV, List.getElem_map]
    exact tildeByte_eq (hvb _ (v.getElem_mem hi))
  · intro J stringify p k hk hv12
    simp only [encryptResponse]
    rw [if_neg (by simp [hk]), if_neg (by simp [flipIV_length, hv12])]

/-- C3 witness: the derived IV at a concrete input. -/
theorem claimC3_witness : (flipIV cexIV).getD 0 0 = 255 - cexIV.getD 0 0 :=
  (claimC3_iv_derivation cexIV (by decide)).2.1 0 (by decide)

/-- C9 (implicit): `Buffer.from` coerces `~b` to `(255 - b) % 256`, and the
flip applied twice to a 12-byte IV of bytes is the identity. -/
theorem claimC9_flip_involution (v : List Nat) (hlen : v.length = 12)
    (hvb : ∀ b ∈ v, b < 256) :
    (∀ b ∈ v, tildeByte b = (255 - b) % 256) ∧ flipIV (flipIV v) = v := by
  constructor
  · intro b hb
    rw [tildeByte_eq (hvb b hb)]
    omega
  · rw [flipIV, flipIV, List.map_map]
    have h : ∀ b ∈ v, (tildeByte ∘ tildeByte) b = id b := by
      intro b hb
      have hb2 := hvb b hb
      show tildeByte (tildeByte b) = b
      rw [tildeByte_eq hb2, tildeByte_eq (by omega)]
      omega
    rw [List.map_congr_left h, List.map_id]

/-- C9 witness: the involution at a concrete 12-byte IV. -/
theorem claimC9_witness : flipIV (flipIV cexIV) = cexIV :=
  (claimC9_flip_involution cexIV (by decide) (by decide)).2

/-- C5: the base64-decoded `encrypted_flow_data` buffer of length `n` is
split into the first `n - 16` bytes (ciphertext body) and the last
16 bytes (auth tag); for `n < 16` the clamped `subarray` yields an empty
body and the whole buffer as the tag. -/
theorem claimC5_tag_split (buf : List Nat) :
    splitFlowData buf = (buf.take (buf.length - 16), buf.drop (buf.length - 16)) ∧
    (16 ≤ buf.length →
      (splitFlowData buf).2.length = 16 ∧
      (splitFlowData buf).1.length = buf.length - 16) ∧
    (buf.length < 16 → (splitFlowData buf).2 = buf ∧ (splitFlowData buf).1 = []) := by
  refine ⟨splitFlowData_eq buf, ?_, ?_⟩
  · intro h
    rw [splitFlowData_eq]
    constructor
    · simp only [List.length_drop]
      omega
    · simp only [List.length_take]
      omega
  · intro h
    rw [splitFlowData_eq]
    have e : buf.length - 16 = 0 := by omega
    rw [e]
    exact ⟨by simp, by simp⟩

/-- C5 witness: the split at a concrete 20-byte buffer. -/
theorem claimC5_witness :
    (splitFlowData (List.range 20)).2.length = 16 ∧
    (splitFlowData (List.range 20)).1.length = 20 - 16 :=
  (claimC5_tag_split (List.range 20)).2.1 (by decide)

/-- C10 (implicit): the CommonJS `decryptRequest` throws
`FlowEndpointException(400, ...)` whenever any envelope field is falsy,
for every RSA oracle and JSON parser alike — no key operation can
influence the outcome. -/
theorem claimC10_missing_fields {J : Type} (createKeyOk : Bool)
    (privateDecrypt : String → Option (List Nat)) (jsonParse : List Nat → Option J)
    (body : RequestBody)
    (h : (falsy body.encrypted_aes_key || falsy body.encrypted_flow_data ||
      falsy body.initial_vector) = true) :
    decryptRequestCJS createKeyOk privateDecrypt jsonParse body =
      .error (.flowEndpointException 400 cjsMissingMsg) := by
  unfold decryptRequestCJS
  rw [if_pos h]

/-- C10 witness: a concrete envelope with a missing `initial_vector`. -/
theorem claimC10_witness :
    decryptRequestCJS true cexPrivateDecrypt cexParse ⟨some "EK", some "AA==", none⟩ =
      .error (.flowEndpointException 400 cjsMissingMsg) :=
  claimC10_missing_fields true cexPrivateDecrypt cexParse _ (by decide)

/-- C8 (amended): with the private key loaded, an `encrypted_aes_key` that
fails RSA-OAEP unwrapping makes the ES-module `decryptRequest` throw
`FlowEndpointException(421)` with the fixed generic message (no key
material in the error); but when `crypto.createPrivateKey` itself fails
(malformed PEM, wrong passphrase) the raw crypto error escapes uncaught,
because that call sits before the `try` block. -/
theorem claimC8_rsa_unwrap_failure {J : Type}
    (privateDecrypt : String → Option (List Nat)) (jsonParse : List Nat → Option J)
    (body : RequestBody) :
    (∀ ek, body.encrypted_aes_key = some ek → privateDecrypt ek = none →
      decryptRequest true privateDecrypt jsonParse body =
        .error (.flowEndpointException 421 esmRsaFailMsg)) ∧
    decryptRequest false privateDecrypt jsonParse body =
      .error (.cryptoError keyLoadFailMsg) := by
  constructor
  · intro ek hek hun
    simp [decryptRequest, hek, hun]
  · unfold decryptRequest
    rw [if_pos rfl]

/-- C8 witness: a concrete envelope whose AES key fails to unwrap. -/
theorem claimC8_witness :
    decryptRequest true cexPrivateDecrypt cexParse ⟨some "BAD", some "AA==", some "AA=="⟩ =
      .error (.flowEndpointException 421 esmRsaFailMsg) :=
  (claimC8_rsa_unwrap_failure cexPrivateDecrypt cexParse _).1 "BAD" rfl (by decide)

/-- C8 counterexample: with a private key that fails to load (malformed
key or wrong passphrase), the ES-module `decryptRequest` signals the raw
crypto error, not a `FlowEndpointException`. -/
theorem claimC8_counterexample :
    decryptRequest false cexPrivateDecrypt cexParse ⟨some "EK", some "AA==", some "AA=="⟩ =
      .error (.cryptoError keyLoadFailMsg) ∧
    (JsError.cryptoError keyLoadFailMsg).isFlowEndpointException = false := by
  exact ⟨rfl, rfl⟩

/-- C4 (amended): signature verification fails closed — a missing or
empty (falsy) header signals `SecurityError("Missing signature")`; with a
nonempty header but no configured secret, `createHmac` throws a
`TypeError`; verification succeeds exactly on the `"sha256="`-prefixed
digest; and a wrong nonempty header signals
`SecurityError("Invalid signature")` when its UTF-8 byte length matches
the expected digest string and a `RangeError` from
`crypto.timingSafeEqual` otherwise. -/
theorem claimC4_signature_fails_closed (hmacHex : String → String → String)
    (secret : String) (req : HttpRequest) :
    (falsy req.xHubSignature256 = true →
      validateSignature (some secret) hmacHex req =
        .error (.securityError "Missing signature")) ∧
    (falsy req.xHubSignature256 = false →
      validateSignature none hmacHex req = .error (.typeError hmacKeyMsg)) ∧
    (∀ sig, req.xHubSignature256 = some sig → sig ≠ "" →
      (validateSignature (some secret) hmacHex req = .ok () ↔
        sig = "sha256=" ++ hmacHex secret req.rawBody)) ∧
    (∀ sig, req.xHubSignature256 = some sig → sig ≠ "" →
      sig ≠ "sha256=" ++ hmacHex secret req.rawBody →
      validateSignature (some secret) hmacHex req =
        (if sig.utf8ByteSize = ("sha256=" ++ hmacHex secret req.rawBody).utf8ByteSize
         then .error (.securityError "Invalid signature")
         else .error (.rangeError timingLengthMsg))) := by
  refine ⟨?_, ?_, ?_, ?_⟩
  · intro h
    simp [validateSignature, h]
  · intro h
    simp [validateSignature, h]
  · intro sig hsig hne
    simp only [validateSignature, hsig, Option.getD_some]
    rw [if_neg (by simp [falsy, hne])]
    constructor
    · intro h
      by_cases h1 : sig.utf8ByteSize ≠ ("sha256=" ++ hmacHex secret req.rawBody).utf8ByteSize
      · rw [if_pos h1] at h; simp at h
      · rw [if_neg h1] at h
        by_cases h2 : sig ≠ "sha256=" ++ hmacHex secret req.rawBody
        · rw [if_pos h2] at h; simp at h
        · simpa using h2
    · intro h
      subst h
      rw [if_neg (by simp), if_neg (by simp)]
  · intro sig hsig hne hne2
    simp only [validateSignature, hsig, Option.getD_some]
    rw [if_neg (by simp [falsy, hne])]
    by_cases h1 : sig.utf8ByteSize = ("sha256=" ++ hmacHex secret req.rawBody).utf8ByteSize
    · rw [if_neg (by simp [h1]), if_pos hne2, if_pos h1]
    · rw [if_pos h1, if_neg h1]

/-- C4 witness: an equal-length wrong signature is rejected with
`SecurityError("Invalid signature")`. -/
theorem claimC4_witness :
    validateSignature (some "secret") cexHmac ⟨"BODY", some "sha256=zz", ⟨none, none, none⟩⟩ =
      .error (.securityError "Invalid signature") := by
  rw [(claimC4_signature_fails_closed cexHmac "secret"
    ⟨"BODY", some "sha256=zz", ⟨none, none, none⟩⟩).2.2.2 "sha256=zz" rfl (by decide)
    (by decide), if_pos (by decide)]

/-- C4 counterexample: a mismatched header of a different length makes
`crypto.timingSafeEqual` throw a `RangeError`, not the claimed
`SecurityError`. -/
theorem claimC4_counterexample :
    validateSignature (some "secret") cexHmac ⟨"BODY", some "x", ⟨none, none, none⟩⟩ =
      .error (.rangeError timingLengthMsg) ∧
    (JsError.rangeError timingLengthMsg).isSecurityError = false := by
  exact ⟨by decide, rfl⟩

/-- C6: the POST handler reaches `decryptRequest` only when the signature
middleware succeeded (rate limiting and signature checks come first, and
any of their errors aborts into the catch branch). -/
theorem claimC6_verify_before_decrypt {J : Type} (ctx : ServerCtx J) (req : HttpRequest)
    (h : decryptInvoked ctx req = true) :
    validateSignature ctx.appSecret ctx.hmacSha256Hex req = .ok () := by
  unfold decryptInvoked at h
  cases hr : ctx.rateCheck with
  | error e => rw [hr] at h; simp at h
  | ok u =>
    rw [hr] at h
    cases hv : validateSignature ctx.appSecret ctx.hmacSha256Hex req with
    | error e => rw [hv] at h; simp at h
    | ok u2 => cases u2; rfl

/-- C6 witness: a concrete request whose valid signature lets the handler
reach the decryption step. -/
theorem claimC6_witness :
    validateSignature cexCtx.appSecret cexCtx.hmacSha256Hex
      ⟨"BODY", some "sha256=ab", ⟨none, none, none⟩⟩ = .ok () :=
  claimC6_verify_before_decrypt cexCtx ⟨"BODY", some "sha256=ab", ⟨none, none, none⟩⟩
    (by decide)

/-- C7: whenever the handler pipeline (rate limit, signature check,
decrypt, route, encrypt) throws any error, the outer catch responds with
HTTP 200 and an empty body. -/
theorem claimC7_benign_response {J : Type} (ctx : ServerCtx J) (req : HttpRequest)
    (e : JsError) (h : flowPipeline ctx req = .error e) :
    appPost ctx req = ⟨200, ""⟩ := by
  unfold appPost
  rw [h]

/-- C7 witness: a concrete request with a missing signature gets the
benign 200 / empty-body response. -/
theorem claimC7_witness : appPost cexCtx ⟨"BODY", none, ⟨none, none, none⟩⟩ = ⟨200, ""⟩ :=
  claimC7_benign_response cexCtx ⟨"BODY", none, ⟨none, none, none⟩⟩
    (.securityError "Missing signature") (by decide)

theorem splitFlowData_append (ct tag : List Nat) (htag : tag.length = 16) :
    splitFlowData (ct ++ tag) = (ct, tag) := by
  rw [splitFlowData_eq]
  have hlen : (ct ++ tag).length - 16 = ct.length := by
    rw [List.length_append, htag]
    omega
  rw [hlen, List.take_left, List.drop_left]

/-- C1 (amended): decrypting the envelope built from
`encryptResponse(p, k, v)` round-trips — provided `initial_vector` carries
the base64 of the *bit-complemented* `v` (the IV `encryptResponse`
actually feeds the cipher), since `decryptRequest` uses the envelope IV
as-is.  The result returns `p` together with the key and that IV buffer. -/
theorem claimC1_roundtrip {J : Type}
    (privateDecrypt : String → Option (List Nat)) (jsonParse : List Nat → Option J)
    (stringify : J → List Nat) (p : J) (k v : List Nat) (ekStr efd : String)
    (hk : k.length = 16) (hv : v.length = 12)
    (hpb : ∀ b ∈ stringify p, b < 256)
    (hvb : ∀ b ∈ v, b < 256)
    (hun : privateDecrypt ekStr = some k)
    (hparse : jsonParse (stringify p) = some p)
    (henc : encryptResponse stringify p k v = .ok efd) :
    decryptRequest true privateDecrypt jsonParse
      ⟨some ekStr, some efd, some (encodeB64 (flipIV v))⟩ =
      .ok ⟨p, k, flipIV v⟩ := by
  simp only [encryptResponse] at henc
  rw [if_neg (by simp [hk]), if_neg (by simp [flipIV_length, hv])] at henc
  have hefd := (Except.ok.inj henc).symm
  subst hefd
  have hctb : ∀ b ∈ (gcmEncrypt k (flipIV v) (stringify p)).1, b < 256 :=
    gcmEncrypt_ct_mem_lt k (flipIV v) hpb
  have htagb : ∀ b ∈ (gcmEncrypt k (flipIV v) (stringify p)).2, b < 256 :=
    gcmTag_mem_lt k (flipIV v) _
  have hdec1 : decodeB64 (encodeB64 ((gcmEncrypt k (flipIV v) (stringify p)).1 ++
      (gcmEncrypt k (flipIV v) (stringify p)).2)) =
      (gcmEncrypt k (flipIV v) (stringify p)).1 ++ (gcmEncrypt k (flipIV v) (stringify p)).2 :=
    decodeB64_encodeB64 _ (append_mem_lt hctb htagb)
  have hdec2 : decodeB64 (encodeB64 (flipIV v)) = flipIV v :=
    decodeB64_encodeB64 _ (flipIV_mem_lt v)
  have hsplit : splitFlowData ((gcmEncrypt k (flipIV v) (stringify p)).1 ++
      (gcmEncrypt k (flipIV v) (stringify p)).2) =
      ((gcmEncrypt k (flipIV v) (stringify p)).1, (gcmEncrypt k (flipIV v) (stringify p)).2) :=
    splitFlowData_append _ _ (gcmTag_length k (flipIV v) _)
  have hivlen : (flipIV v).length = 12 := by rw [flipIV_length, hv]
  have hgcm : gcmDecrypt k (flipIV v) (gcmEncrypt k (flipIV v) (stringify p)).1
      (gcmEncrypt k (flipIV v) (stringify p)).2 = some (stringify p) :=
    gcmDecrypt_gcmEncrypt k (flipIV v) (stringify p)
  simp only [decryptRequest, hun, hdec1, hdec2, hsplit, hgcm, hparse, hk, hivlen]
  simp

/-- C1 witness: the amended round trip at the concrete fixture. -/
theorem claimC1_witness :
    decryptRequest true cexPrivateDecrypt cexParse
      ⟨some "EK", some cexEfd, some (encodeB64 (flipIV cexIV))⟩ =
      .ok ⟨7, cexKey, flipIV cexIV⟩ :=
  claimC1_roundtrip cexPrivateDecrypt cexParse cexStringify 7 cexKey cexIV "EK" cexEfd
    rfl rfl (by decide) (by decide) (by decide) (by decide) (by decide)

/-- C1 counterexample: the claim's own envelope — `initial_vector` set to
base64 of the request IV `v` itself — does not round-trip: the data was
encrypted under the complemented IV, so GCM tag verification fails and
`decryptRequest` rejects instead of returning `p`. -/
theorem claimC1_counterexample :
    decryptRequest true cexPrivateDecrypt cexParse
      ⟨some "EK", some cexEfd, some (encodeB64 cexIV)⟩ =
      .error (.cryptoError authFailMsg) ∧
    decryptRequest true cexPrivateDecrypt cexParse
      ⟨some "EK", some cexEfd, some (encodeB64 cexIV)⟩ ≠
      .ok ⟨7, cexKey, cexIV⟩ := by
  have h : decryptRequest true cexPrivateDecrypt cexParse
      ⟨some "EK", some cexEfd, some (encodeB64 cexIV)⟩ =
      .error (.cryptoError authFailMsg) := by decide
  refine ⟨h, ?_⟩
  rw [h]
  intro hc
  cases hc

/-- A complete envelope whose split ciphertext/tag fail GCM verification
is rejected: the ES-module variant lets the cipher's authentication error
escape, the CommonJS variant wraps it into `FlowEndpointException(421)`. -/
theorem gcm_authfail_pair {J : Type}
    (privateDecrypt : String → Option (List Nat)) (jsonParse : List Nat → Option J)
    (ekStr : String) (k iv buf : List Nat)
    (hek : ekStr ≠ "")
    (hun : privateDecrypt ekStr = some k)
    (hk : k.length = 16) (hiv : iv.length = 12)
    (hb : ∀ b ∈ buf, b < 256) (hivb : ∀ b ∈ iv, b < 256)
    (hbne : buf ≠ [])
    (hmiss : gcmTag k iv (splitFlowData buf).1 ≠ (splitFlowData buf).2) :
    decryptRequest true privateDecrypt jsonParse
      ⟨some ekStr, some (encodeB64 buf), some (encodeB64 iv)⟩ =
      .error (.cryptoError authFailMsg) ∧
    decryptRequestCJS true privateDecrypt jsonParse
      ⟨some ekStr, some (encodeB64 buf), some (encodeB64 iv)⟩ =
      .error (.flowEndpointException 421 cjsFailMsg) := by
  have hdec1 : decodeB64 (encodeB64 buf) = buf := decodeB64_encodeB64 _ hb
  have hdec2 : decodeB64 (encodeB64 iv) = iv := decodeB64_encodeB64 _ hivb
  have hgcm : gcmDecrypt k iv (splitFlowData buf).1 (splitFlowData buf).2 = none := by
    unfold gcmDecrypt
    rw [if_neg hmiss]
  have hivne : iv ≠ [] := by
    intro hc
    rw [hc] at hiv
    simp at hiv
  constructor
  · simp only [decryptRequest, hun, hdec1, hdec2, hk, hiv, hgcm]
    simp
  · have hf1 : falsy (some ekStr) = false := by
      simp [falsy]
      exact hek
    have hf2 : falsy (some (encodeB64 buf)) = false := by
      simp [falsy]
      exact encodeB64_ne_empty hbne
    have hf3 : falsy (some (encodeB64 iv)) = false := by
      simp [falsy]
      exact encodeB64_ne_empty hivne
    simp only [decryptRequestCJS, hf1, hf2, hf3, hun, hdec1, hdec2, hk, hiv, hgcm]
    simp

theorem splitFlowData_flipBit_tag {ct tag : List Nat} (htag : tag.length = 16)
    {i j : Nat} (hge : ct.length ≤ i) (hlt : i < ct.length + 16) :
    splitFlowData (flipBitAt (ct ++ tag) i j) =
      (ct, flipBitAt tag (i - ct.length) j) := by
  have hgetd : (ct ++ tag).getD i 0 = tag.getD (i - ct.length) 0 := by
    rw [List.getD_eq_getElem?_getD, List.getD_eq_getElem?_getD,
      List.getElem?_append_right hge]
  unfold flipBitAt
  rw [hgetd, splitFlowData_eq]
  have hlen : ((ct ++ tag).set i (tag.getD (i - ct.length) 0 ^^^ (1 <<< j))).length - 16 =
      ct.length := by
    rw [List.length_set, List.length_append, htag]
    omega
  rw [hlen, take_set_ge _ _ _ _ hge, drop_set_ge _ _ _ _ hge,
    List.take_left, List.drop_left]


/-- C2 (amended): for an envelope validly produced by `encryptResponse`
(the first conjunct exhibits the envelope's `encrypted_flow_data` as that
output), flipping any single bit of the 16-byte GCM tag segment before
calling `decryptRequest` makes decryption fail and no parsed object is
returned: the ES-module `decryptRequest` propagates the cipher's raw
authentication error uncaught (not a `FlowEndpointException`, since its
`try` covers only the RSA unwrap), while the CommonJS variant signals
`FlowEndpointException(421)`. -/
theorem claimC2_tamper_detect {J : Type}
    (privateDecrypt : String → Option (List Nat)) (jsonParse : List Nat → Option J)
    (stringify : J → List Nat) (p : J) (k v ct tag : List Nat) (ekStr : String)
    (hek : ekStr ≠ "")
    (hk : k.length = 16) (hv : v.length = 12)
    (hpb : ∀ b ∈ stringify p, b < 256) (hvb : ∀ b ∈ v, b < 256)
    (hun : privateDecrypt ekStr = some k)
    (hct : ct = (gcmEncrypt k (flipIV v) (stringify p)).1)
    (htag : tag = (gcmEncrypt k (flipIV v) (stringify p)).2) :
    encryptResponse stringify p k v = .ok (encodeB64 (ct ++ tag)) ∧
    (∀ i j, ct.length ≤ i → i < ct.length + 16 → j < 8 →
      decryptRequest true privateDecrypt jsonParse
        ⟨some ekStr, some (encodeB64 (flipBitAt (ct ++ tag) i j)),
          some (encodeB64 (flipIV v))⟩ = .error (.cryptoError authFailMsg) ∧
      decryptRequestCJS true privateDecrypt jsonParse
        ⟨some ekStr, some (encodeB64 (flipBitAt (ct ++ tag) i j)),
          some (encodeB64 (flipIV v))⟩ =
        .error (.flowEndpointException 421 cjsFailMsg)) := by
  subst hct
  subst htag
  have hctb : ∀ b ∈ (gcmEncrypt k (flipIV v) (stringify p)).1, b < 256 :=
    gcmEncrypt_ct_mem_lt k (flipIV v) hpb
  have htagb : ∀ b ∈ (gcmEncrypt k (flipIV v) (stringify p)).2, b < 256 :=
    gcmTag_mem_lt k (flipIV v) (gcmEncrypt k (flipIV v) (stringify p)).1
  have htaglen : (gcmEncrypt k (flipIV v) (stringify p)).2.length = 16 :=
    gcmTag_length k (flipIV v) (gcmEncrypt k (flipIV v) (stringify p)).1
  have hivlen : (flipIV v).length = 12 := by rw [flipIV_length, hv]
  refine ⟨?_, ?_⟩
  · simp only [encryptResponse]
    rw [if_neg (by simp [hk]), if_neg (by simp [flipIV_length, hv])]
  · intro i j h1 h2 h3
    have hidx : i - (gcmEncrypt k (flipIV v) (stringify p)).1.length <
        (gcmEncrypt k (flipIV v) (stringify p)).2.length := by omega
    refine gcm_authfail_pair privateDecrypt jsonParse ekStr k (flipIV v) _
      hek hun hk hivlen
      (flipBitAt_mem_lt (append_mem_lt hctb htagb) h3)
      (flipIV_mem_lt v) ?_ ?_
    · intro hc
      have hl := congrArg List.length hc
      rw [flipBitAt_length, List.length_append, htaglen] at hl
      simp at hl
    · rw [splitFlowData_flipBit_tag htaglen h1 h2]
      show gcmTag k (flipIV v) (gcmEncrypt k (flipIV v) (stringify p)).1 ≠ _
      have htageq : gcmTag k (flipIV v) (gcmEncrypt k (flipIV v) (stringify p)).1 =
          (gcmEncrypt k (flipIV v) (stringify p)).2 := rfl
      rw [htageq]
      unfold flipBitAt
      refine Ne.symm (set_ne_self hidx ?_)
      rw [List.getD_eq_getElem _ _ hidx]
      exact xor_ne_self (by rw [Nat.one_shiftLeft]; exact (Nat.two_pow_pos j).ne')

/-- C2 witness: both variants reject a concrete envelope with one bit
flipped in the first tag byte. -/
theorem claimC2_witness :
    decryptRequest true cexPrivateDecrypt cexParse
      ⟨some "EK",
        some (encodeB64 (flipBitAt ((gcmEncrypt cexKey (flipIV cexIV) (cexStringify 7)).1 ++
          (gcmEncrypt cexKey (flipIV cexIV) (cexStringify 7)).2) 2 0)),
        some (encodeB64 (flipIV cexIV))⟩ = .error (.cryptoError authFailMsg) ∧
    decryptRequestCJS true cexPrivateDecrypt cexParse
      ⟨some "EK",
        some (encodeB64 (flipBitAt ((gcmEncrypt cexKey (flipIV cexIV) (cexStringify 7)).1 ++
          (gcmEncrypt cexKey (flipIV cexIV) (cexStringify 7)).2) 2 0)),
        some (encodeB64 (flipIV cexIV))⟩ =
      .error (.flowEndpointException 421 cjsFailMsg) :=
  (claimC2_tamper_detect cexPrivateDecrypt cexParse cexStringify 7 cexKey cexIV
    (gcmEncrypt cexKey (flipIV cexIV) (cexStringify 7)).1
    (gcmEncrypt cexKey (flipIV cexIV) (cexStringify 7)).2 "EK"
    (by decide) rfl rfl (by decide) (by decide) (by decide) rfl rfl).2
    2 0 (by decide) (by decide) (by decide)

/-- C2 counterexample: in the ES-module variant the tampered envelope is
rejected with the raw cipher authentication error, not the claimed
`FlowEndpointException` (the GCM statements sit outside the `try`). -/
theorem claimC2_counterexample :
    decryptRequest true cexPrivateDecrypt cexParse
      ⟨some "EK", some (encodeB64 (flipBitAt (decodeB64 cexEfd) 3 1)),
        some (encodeB64 (flipIV cexIV))⟩ = .error (.cryptoError authFailMsg) ∧
    (JsError.cryptoError authFailMsg).isFlowEndpointException = false := by
  exact ⟨by decide, rfl⟩
